import Mathlib

/-!
# Verification of the lorawan-analyzer ingestion pipeline

A shallow embedding of the core of the `lorawan-analyzer` repository
(TypeScript) in Lean 4, together with theorems settling the claims of its
natural-language specification.

Embedding conventions:

* JavaScript strings are modelled as `List Char`; `String` is kept only for
  atomic labels (operator names, packet types) that are compared wholesale.
* JavaScript numbers used as 32-bit integers are modelled as `Nat` with an
  explicit `% 2 ^ 32` where the code relies on 32-bit wrap-around (`js32`,
  `land32`); JavaScript `BigInt` is modelled as `Nat`.
* `Buffer` values are modelled as `List Nat` (byte lists).
* Functions from files of the repository that are not present under `src/`
  (`src/parser/lorawan.ts`, `src/parser/airtime.ts`, `src/parser/downlink.ts`)
  are modelled from the specification; each such definition carries a doc
  comment starting with `Modelled from the spec:`.
-/

/-! ## Basic JavaScript arithmetic and string helpers -/

/-- JavaScript `>>> 0` / ToUint32: truncation to 32 bits. -/
def js32 (n : Nat) : Nat := n % 2 ^ 32

/-- JavaScript `&` on numbers: both operands are truncated to 32 bits and
combined bitwise.  Equality of the (signed) results coincides with equality
of the 32-bit patterns, so the result is kept as a `Nat` pattern. -/
def land32 (a b : Nat) : Nat := Nat.land (js32 a) (js32 b)

/-- Numeric value of a hex digit (`parseInt` digit table); non-hex characters
are given value 0 (they do not occur on the claims' domains). -/
def hexVal (c : Char) : Nat :=
  let n := c.toNat
  if 48 ≤ n ∧ n ≤ 57 then n - 48
  else if 97 ≤ n ∧ n ≤ 102 then n - 87
  else if 65 ≤ n ∧ n ≤ 70 then n - 55
  else 0

/-- `parseInt(s, 16)` on an all-hex-digit string: big-endian fold. -/
def parseHex (d : List Char) : Nat :=
  d.foldl (fun acc c => 16 * acc + hexVal c) 0

/-- JavaScript `parseInt(s, 16)` on a two-character substring, as used by
`tryDecodeAscii`: both digits hex gives the byte value; a hex digit followed
by a non-hex character parses the first digit only; a leading non-hex
character yields `NaN`, modelled as `none`. -/
def jsParseIntHex2 (c1 c2 : Char) : Option Nat :=
  let n1 := c1.toNat
  let hex1 := (48 ≤ n1 ∧ n1 ≤ 57) ∨ (97 ≤ n1 ∧ n1 ≤ 102) ∨ (65 ≤ n1 ∧ n1 ≤ 70)
  let n2 := c2.toNat
  let hex2 := (48 ≤ n2 ∧ n2 ≤ 57) ∨ (97 ≤ n2 ∧ n2 ≤ 102) ∨ (65 ≤ n2 ∧ n2 ≤ 70)
  if hex1 then
    if hex2 then some (16 * hexVal c1 + hexVal c2) else some (hexVal c1)
  else none

/-- ASCII `String.prototype.toUpperCase` on one character. -/
def toUpperChar (c : Char) : Char :=
  if 97 ≤ c.toNat ∧ c.toNat ≤ 122 then Char.ofNat (c.toNat - 32) else c

/-- `String.prototype.startsWith`: `beginsWith pat s` is true when `pat` is a
prefix of `s`. -/
def beginsWith : List Char → List Char → Bool
  | [], _ => true
  | _ :: _, [] => false
  | c :: cs, d :: ds => c == d && beginsWith cs ds

/-- `String.prototype.includes`: `containsSeq pat s` is true when `pat` occurs
contiguously inside `s`. -/
def containsSeq (pat : List Char) : List Char → Bool
  | [] => beginsWith pat []
  | c :: cs => beginsWith pat (c :: cs) || containsSeq pat cs

/-- `String.prototype.split(sep)` for a one-character separator. -/
def splitOnChar (sep : Char) : List Char → List (List Char)
  | [] => [[]]
  | c :: cs =>
    if c == sep then [] :: splitOnChar sep cs
    else
      match splitOnChar sep cs with
      | [] => [[c]]
      | s :: ss => (c :: s) :: ss

/-! ## Operator matcher (`src/operators/matcher.ts`, `src/operators/prefixes.ts`) -/

/-- One entry of the operator rule vector (`OperatorPrefix` in
`src/operators/prefixes.ts`).  The source field `prefix` is named `pfx`
here because `prefix` is reserved in Lean. -/
structure OperatorRule where
  pfx : Nat
  mask : Nat
  bits : Nat
  name : String
  priority : Int
  deriving DecidableEq, Repr

/-- The match test of `matchOperator`:
`(devAddrNum & op.mask) === (op.prefix & op.mask)`. -/
def matchesRule (n : Nat) (op : OperatorRule) : Bool :=
  land32 n op.mask == land32 op.pfx op.mask

/-- The scan loop of `matchOperator` over the rule vector. -/
def matchOperatorGo (n : Nat) : List OperatorRule → String
  | [] => "Unknown"
  | op :: rest => if matchesRule n op then op.name else matchOperatorGo n rest

/-- `matchOperator(devAddr)` from `src/operators/matcher.ts`, with the module
state `getOperatorPrefixes()` passed explicitly. -/
def matchOperator (rules : List OperatorRule) (devAddr : List Char) : String :=
  matchOperatorGo (parseHex devAddr) rules

/-- The rule test as worded by the specification:
`(addr & rule.mask) == rule.prefix` (note: not masked on the right).  This
definition follows the spec's words, for comparison with `matchesRule`. -/
def matchesRuleClaimed (n : Nat) (op : OperatorRule) : Bool :=
  land32 n op.mask == js32 op.pfx

/-- `matchOperator` as worded by the specification (first rule satisfying
`matchesRuleClaimed`, else `"Unknown"`). -/
def matchOperatorClaimed (rules : List OperatorRule) (devAddr : List Char) : String :=
  match rules.find? (matchesRuleClaimed (parseHex devAddr)) with
  | some op => op.name
  | none => "Unknown"

/-- `parsePrefix` from `src/operators/prefixes.ts`, with the `"AABBCCDD/bits"`
string already split into its numeric components:
`mask = bits === 0 ? 0 : (0xffffffff << (32 - bits)) >>> 0`. -/
def parsePrefix (pfxNum bitsNum : Nat) : OperatorRule :=
  { pfx := pfxNum
    mask := if bitsNum == 0 then 0 else js32 (0xffffffff <<< (32 - bitsNum))
    bits := bitsNum
    name := ""
    priority := 0 }

/-- The sort comparator of `initOperatorPrefixes` read as a boolean "may come
first" relation: `ruleLE a b` holds exactly when the comparator
`(a, b) ↦ (a.priority ≠ b.priority ? b.priority - a.priority : b.bits - a.bits)`
is `≤ 0`. -/
def ruleLE (a b : OperatorRule) : Bool :=
  if a.priority == b.priority then b.bits ≤ a.bits else b.priority < a.priority

/-- The rule list assembled by `initOperatorPrefixes` before sorting: built-in
operators (priority 0) in table order, then custom operators with their
configured priority, in configuration order. -/
def builtRules (builtin : List (Nat × Nat × String))
    (custom : List (Nat × Nat × String × Int)) : List OperatorRule :=
  builtin.map (fun e => { parsePrefix e.1 e.2.1 with name := e.2.2, priority := 0 })
    ++ custom.map (fun e => { parsePrefix e.1 e.2.1 with name := e.2.2.1, priority := e.2.2.2 })

/-- `initOperatorPrefixes` from `src/operators/prefixes.ts`: assemble the rule
list, then sort it with `Array.prototype.sort` (a stable sort, modelled by
`List.mergeSort`) under the comparator `ruleLE`. -/
def initOperatorPrefixes (builtin : List (Nat × Nat × String))
    (custom : List (Nat × Nat × String × Int)) : List OperatorRule :=
  (builtRules builtin custom).mergeSort ruleLE

/-! ## JoinEUI matcher (`src/operators/matcher.ts`) -/

/-- The per-pair loop body of `tryDecodeAscii`: decode consecutive hex pairs,
keeping only printable ASCII (0x20–0x7E). -/
def tryDecodeAsciiGo : List Char → Option (List Nat)
  | [] => some []
  | [_] => none
  | c1 :: c2 :: rest =>
    match jsParseIntHex2 c1 c2 with
    | some code =>
      if 32 ≤ code ∧ code ≤ 126 then (tryDecodeAsciiGo rest).map (code :: ·)
      else none
    | none => none

/-- `tryDecodeAscii(hex)` from `src/operators/matcher.ts`: requires a
16-character string; decodes the 8 hex pairs as ASCII codes, failing on the
first non-printable byte. -/
def tryDecodeAscii (hex : List Char) : Option (List Nat) :=
  if hex.length ≠ 16 then none else tryDecodeAsciiGo hex

/-- The scan loop of `matchOperatorForJoinEui` over the JoinEUI prefix table. -/
def joinEuiGo (upper : List Char) : List (List Char × String) → Option String
  | [] => none
  | e :: rest => if beginsWith e.1 upper then some e.2 else joinEuiGo upper rest

/-- `matchOperatorForJoinEui(joinEui)` from `src/operators/matcher.ts`, with
the module state `DEVICE_PREFIX_MAP` passed explicitly as `table`.  The final
`decoded ? 'Private' : 'Unknown'` uses JavaScript truthiness: the empty
string is falsy. -/
def matchOperatorForJoinEui (table : List (List Char × String))
    (joinEui : List Char) : String :=
  let upper := joinEui.map toUpperChar
  match joinEuiGo upper table with
  | some op => op
  | none =>
    match tryDecodeAscii joinEui with
    | some s => if s.isEmpty then "Unknown" else "Private"
    | none => "Unknown"

/-- The hex pairs of a string as byte values (specification side: "the 8
bytes" of a 16-hex-digit JoinEUI). -/
def hexBytes : List Char → List Nat
  | c1 :: c2 :: rest => (16 * hexVal c1 + hexVal c2) :: hexBytes rest
  | _ => []

/-- A character is a hexadecimal digit. -/
def isHexChar (c : Char) : Prop :=
  (48 ≤ c.toNat ∧ c.toNat ≤ 57) ∨ (97 ≤ c.toNat ∧ c.toNat ≤ 102)
    ∨ (65 ≤ c.toNat ∧ c.toNat ≤ 70)

instance (c : Char) : Decidable (isHexChar c) := by
  unfold isHexChar; infer_instance

/-! ## Parsed packets (`src/types.ts`) -/

/-- `ParsedPacket` from `src/types.ts` (the fields the verified components
read or write).  Hex identifiers are `List Char`; `snr` and `airtime_us` are
kept as exact rationals (the claims do not depend on float rounding). -/
structure PacketM where
  timestamp : Nat := 0
  gateway_id : List Char := []
  border_gateway_id : Option (List Char) := none
  packet_type : String := ""
  dev_addr : Option (List Char) := none
  join_eui : Option (List Char) := none
  dev_eui : Option (List Char) := none
  operator : String := ""
  frequency : Nat := 0
  spreading_factor : Option Nat := none
  bandwidth : Nat := 125000
  rssi : Int := 0
  snr : ℚ := 0
  payload_size : Nat := 0
  airtime_us : ℚ := 0
  f_cnt : Option Nat := none
  f_port : Option Nat := none
  confirmed : Option Bool := none
  deriving DecidableEq

/-! ## Live broadcast filters (`src/websocket/live.ts`) -/

/-- `DevicePrefix` from `src/websocket/live.ts`; the source field `prefix`
is named `pfx` (reserved word in Lean). -/
structure DevicePrefix where
  pfx : Nat
  mask : Nat
  deriving DecidableEq

/-- `matchesDeviceFilter(devAddr, filterMode, prefixes)` from
`src/websocket/live.ts`.  `filterMode` is `Option String`; JavaScript
falsiness of `null` and of the empty string is modelled explicitly. -/
def matchesDeviceFilter (devAddr : Option (List Char)) (filterMode : Option String)
    (prefixes : List DevicePrefix) : Bool :=
  match filterMode with
  | none => true
  | some m =>
    if m.isEmpty || prefixes.isEmpty then true
    else
      match devAddr with
      | none => true
      | some d =>
        let addrNum := parseHex d
        let owned := prefixes.any (fun p => land32 addrNum p.mask == land32 p.pfx p.mask)
        if m == "owned" then owned
        else if m == "foreign" then !owned
        else true

/-- The device-ownership step of `broadcastPacket` (lines 306–311 of
`src/websocket/live.ts`): the filter is consulted only for `data` and
`downlink` packets; other packet types skip it. -/
def passesOwnership (pkt : PacketM) (filterMode : Option String)
    (prefixes : List DevicePrefix) : Bool :=
  if pkt.packet_type == "data" || pkt.packet_type == "downlink" then
    matchesDeviceFilter pkt.dev_addr filterMode prefixes
  else true

/-! ## MQTT dispatcher (`src/mqtt/consumer.ts`) -/

/-- `EventType` from `src/mqtt/consumer.ts`. -/
inductive EventType where
  | up | ack | down | stats | txack | unknown
  deriving DecidableEq, Repr

/-- `getEventType(topic)` from `src/mqtt/consumer.ts`: substring tests, in
source order. -/
def getEventType (topic : List Char) : EventType :=
  if containsSeq "/event/up".data topic then .up
  else if containsSeq "/event/txack".data topic then .txack
  else if containsSeq "/event/ack".data topic then .ack
  else if containsSeq "/command/down".data topic then .down
  else if containsSeq "/event/stats".data topic then .stats
  else .unknown

/-- `isApplicationTopic(topic)` from `src/mqtt/consumer.ts`. -/
def isApplicationTopic (topic : List Char) : Bool :=
  beginsWith "application/".data topic

/-- `parts.indexOf('gateway')` as used by `handleMessage`. -/
def idxOfGateway : List (List Char) → Option Nat
  | [] => none
  | s :: ss => if s == "gateway".data then some 0 else (idxOfGateway ss).map (· + 1)

/-- The gateway-id extraction of `handleMessage`: index of the `gateway`
segment, then the following segment; `none` models the silent skip when the
segment is absent or last. -/
def extractGatewayId (parts : List (List Char)) : Option (List Char) :=
  match idxOfGateway parts with
  | none => none
  | some i => parts[i + 1]?

/-! ## Batched writer (`src/db/queries.ts`) -/

/-- `BATCH_SIZE` from `src/db/queries.ts`. -/
def BATCH_SIZE : Nat := 1000

/-- `FLUSH_INTERVAL_MS` from `src/db/queries.ts`. -/
def FLUSH_INTERVAL_MS : Nat := 2000

/-- `flushPacketBuffer` from `src/db/queries.ts`, as a function of the state
it manipulates: `buffer` is `packetBuffer` at entry, `during` are the rows
pushed onto the (emptied) `packetBuffer` while the multi-row insert is in
flight, and `ok` is the insert outcome.  The result is the value of
`packetBuffer` after the call: on success the taken batch is gone; on failure
`packetBuffer = [...batch, ...packetBuffer]` re-queues it at the head. -/
def flushPacketBuffer {α : Type} (buffer during : List α) (ok : Bool) : List α :=
  if buffer.isEmpty then during
  else if ok then during
  else buffer ++ during

/-- The buffering step of `insertPacket` from `src/db/queries.ts`: push the
row, then flush when the buffer has reached `BATCH_SIZE` (otherwise a timer
flush is scheduled).  Returns the new buffer and whether an immediate flush
is triggered. -/
def insertPacket {α : Type} (buffer : List α) (row : α) : List α × Bool :=
  let buffer' := buffer ++ [row]
  (buffer', decide (BATCH_SIZE ≤ buffer'.length))

/-! ## Device packet loss (`src/db/queries.ts`, `getDevicePacketLoss`) -/

/-- One row of the `ordered` CTE input in `getDevicePacketLoss`: a `data`
uplink of the queried device inside the window, with its gateway, its
`COALESCE(session_id, '')` and its non-null frame counter.  The row list is
ordered by `timestamp`. -/
structure LossRow where
  gateway_id : String
  session_id : String
  f_cnt : Int
  deriving DecidableEq

/-- `LAG(f_cnt) OVER (PARTITION BY gateway_id, COALESCE(session_id,'')
ORDER BY timestamp)`: annotate each row (in timestamp order) with the
previous frame counter of its partition. -/
def lagFCnt : List LossRow → List ((String × String) × Int) → List (LossRow × Option Int)
  | [], _ => []
  | r :: rs, seen =>
    (r, (seen.lookup (r.gateway_id, r.session_id))) ::
      lagFCnt rs (((r.gateway_id, r.session_id), r.f_cnt) :: seen)

/-- The `CASE` expression of the `missed` aggregate: `f_cnt - prev_fcnt - 1`
when the previous counter exists and the difference exceeds 1, else 0. -/
def gapOf (row : LossRow × Option Int) : Int :=
  match row.2 with
  | none => 0
  | some prev =>
    if prev < row.1.f_cnt ∧ 1 < row.1.f_cnt - prev then row.1.f_cnt - prev - 1 else 0

/-- Per-gateway aggregation of `getDevicePacketLoss`: for gateway `g`,
`received = COUNT(*)` and `missed = SUM(gap)` over the lag-annotated rows. -/
def gatewayLoss (rows : List LossRow) (g : String) : Nat × Int :=
  let annotated := (lagFCnt rows []).filter (fun r => r.1.gateway_id == g)
  (annotated.length, (annotated.map gapOf).sum)

/-- The result record of `getDevicePacketLoss`. -/
structure LossResult where
  total_received : Nat
  total_expected : Int
  total_missed : Int
  loss_percent : ℚ
  per_gateway : List (String × Nat × Int × ℚ)
  deriving DecidableEq

/-- `getDevicePacketLoss` from `src/db/queries.ts`, over the ordered row list
that the SQL window query reads (one entry per matching packet, in timestamp
order).  Per-gateway and overall `loss_percent` follow the source:
`missed / (received + missed) * 100` when the denominator is positive. -/
def getDevicePacketLoss (rows : List LossRow) : LossResult :=
  let gateways := (rows.map (·.gateway_id)).dedup
  let perGateway := gateways.map (fun g =>
    let rm := gatewayLoss rows g
    let denom : Int := (rm.1 : Int) + rm.2
    (g, rm.1, rm.2, if 0 < denom then (rm.2 : ℚ) / ((rm.1 : ℚ) + (rm.2 : ℚ)) * 100 else 0))
  let totalReceived : Nat := (perGateway.map (fun e => e.2.1)).sum
  let totalMissed : Int := (perGateway.map (fun e => e.2.2.1)).sum
  let totalExpected : Int := (totalReceived : Int) + totalMissed
  { total_received := totalReceived
    total_expected := totalExpected
    total_missed := totalMissed
    loss_percent :=
      if 0 < totalExpected then (totalMissed : ℚ) / (totalExpected : ℚ) * 100 else 0
    per_gateway := perGateway }

/-! ## Protobuf varints and `decodeRxInfo` (`src/parser/uplink.ts`) -/

/-- The loop of `readVarint` (32-bit variant) over the remaining bytes:
`value |= (byte & 0x7f) << shift` with JavaScript 32-bit arithmetic, stopping
on a clear continuation bit or once `shift` would reach 35.  Returns the
value (`>>> 0`) and the number of bytes consumed. -/
def readVarintAux : List Nat → Nat → Nat → Nat × Nat
  | [], _, acc => (acc, 0)
  | b :: bs, shift, acc =>
    let byte := b % 256
    let acc' := (acc ||| ((byte &&& 0x7f) <<< shift)) % 2 ^ 32
    if byte &&& 0x80 == 0 then (acc', 1)
    else if 35 ≤ shift + 7 then (acc', 1)
    else
      let r := readVarintAux bs (shift + 7) acc'
      (r.1, r.2 + 1)

/-- `readVarint(data, offset)` from `src/parser/uplink.ts`. -/
def readVarint (data : List Nat) (offset : Nat) : Nat × Nat :=
  let r := readVarintAux (data.drop offset) 0 0
  (r.1, offset + r.2)

/-- The loop of `readVarintBigInt`: unbounded BigInt accumulation
`value |= BigInt(byte & 0x7f) << shift`, stopping only on a clear
continuation bit or the end of the buffer. -/
def readVarintBigIntAux : List Nat → Nat → Nat → Nat × Nat
  | [], _, acc => (acc, 0)
  | b :: bs, shift, acc =>
    let byte := b % 256
    let acc' := acc ||| ((byte &&& 0x7f) <<< shift)
    if byte &&& 0x80 == 0 then (acc', 1)
    else
      let r := readVarintBigIntAux bs (shift + 7) acc'
      (r.1, r.2 + 1)

/-- `readVarintBigInt(data, offset)` from `src/parser/uplink.ts`. -/
def readVarintBigInt (data : List Nat) (offset : Nat) : Nat × Nat :=
  let r := readVarintBigIntAux (data.drop offset) 0 0
  (r.1, offset + r.2)

/-- `bigIntToSigned32(value)` from `src/parser/uplink.ts`:
`Number(BigInt.asIntN(32, value))` — two's-complement interpretation of the
low 32 bits. -/
def bigIntToSigned32 (v : Nat) : Int :=
  let m : Nat := v % 2 ^ 32
  if m < 2 ^ 31 then (m : Int) else (m : Int) - 2 ^ 32

/-- The little-endian 32-bit word at `offset` (raw bit pattern of the
`readFloatLE` call; the claims do not interpret it as a float). -/
def readFixed32 (data : List Nat) (offset : Nat) : Nat :=
  match (data.drop offset).take 4 with
  | [b0, b1, b2, b3] => b0 % 256 + 256 * (b1 % 256) + 65536 * (b2 % 256) + 16777216 * (b3 % 256)
  | _ => 0

/-- The fields of `UplinkRxInfo` extracted by `decodeRxInfo` that the claims
inspect; `location`/`metadata` sub-messages are consumed byte-accurately by
the loop but their decoded contents are not needed here. -/
structure RxDecoded where
  gatewayId : Option (List Nat) := none
  rssi : Option Int := none
  snrBits : Option Nat := none
  deriving DecidableEq

/-- The wire-walking loop of `decodeRxInfo` from `src/parser/uplink.ts`.
Recursion is by fuel; `decodeRxInfo` supplies `data.length + 1`, which the
loop (whose offset strictly increases) never exhausts. -/
def decodeRxInfoGo (data : List Nat) : Nat → Nat → RxDecoded → RxDecoded
  | 0, _, acc => acc
  | fuel + 1, offset, acc =>
    if offset < data.length then
      let t := readVarint data offset
      let fieldNumber := t.1 / 8
      let wireType := t.1 % 8
      if wireType == 0 then
        let v := readVarintBigInt data t.2
        let acc' := if fieldNumber == 6 then { acc with rssi := some (bigIntToSigned32 v.1) } else acc
        decodeRxInfoGo data fuel v.2 acc'
      else if wireType == 2 then
        let l := readVarint data t.2
        let fieldData := (data.drop l.2).take l.1
        let acc' := if fieldNumber == 1 then { acc with gatewayId := some fieldData } else acc
        decodeRxInfoGo data fuel (l.2 + l.1) acc'
      else if wireType == 5 then
        let acc' := if fieldNumber == 7 then { acc with snrBits := some (readFixed32 data t.2) } else acc
        decodeRxInfoGo data fuel (t.2 + 4) acc'
      else if wireType == 1 then
        decodeRxInfoGo data fuel (t.2 + 8) acc
      else acc
    else acc

/-- `decodeRxInfo(data)` from `src/parser/uplink.ts` (rssi/gatewayId/snr
extraction; the trailing Helium-metadata location fallback concerns only the
`location` output and is omitted). -/
def decodeRxInfo (data : List Nat) : RxDecoded :=
  decodeRxInfoGo data (data.length + 1) 0 {}

/-- The protobuf varint encoding of a non-negative value (specification
side, used to quantify over "every varint value").  Structured with an
explicit fuel bound (any fuel above the value suffices) so that it reduces
by structural recursion. -/
def varintEncodeAux : Nat → Nat → List Nat
  | 0, v => [v]
  | fuel + 1, v =>
    if v < 128 then [v]
    else (v % 128 + 128) :: varintEncodeAux fuel (v / 128)

/-- The protobuf varint encoding of `v`. -/
def varintEncode (v : Nat) : List Nat := varintEncodeAux (v + 1) v

/-! ## PHY parser (modelled from spec §4.1 — `src/parser/lorawan.ts` is not
under `src/`) -/

/-- Render a byte as two uppercase hex characters. -/
def nibbleChar (n : Nat) : Char :=
  match n % 16 with
  | 0 => '0' | 1 => '1' | 2 => '2' | 3 => '3' | 4 => '4' | 5 => '5' | 6 => '6'
  | 7 => '7' | 8 => '8' | 9 => '9' | 10 => 'A' | 11 => 'B' | 12 => 'C'
  | 13 => 'D' | 14 => 'E' | _ => 'F'

/-- Render a byte list as an uppercase big-endian hex string. -/
def bytesToHex (bytes : List Nat) : List Char :=
  (bytes.map (fun b => [nibbleChar ((b % 256) / 16), nibbleChar (b % 16)])).flatten

/-- Modelled from the spec: `isJoinRequest` of the missing
`src/parser/lorawan.ts`.  Spec §4.1: the top 3 bits of MHDR select the
message type, in LoRaWAN order (Join Request = 0). -/
def isJoinRequest (mtype : Nat) : Bool := mtype == 0

/-- Modelled from the spec: `isDataUplink` of the missing
`src/parser/lorawan.ts`.  Unconfirmed Data Up = 2, Confirmed Data Up = 4. -/
def isDataUplink (mtype : Nat) : Bool := mtype == 2 || mtype == 4

/-- Modelled from the spec: `isConfirmedUplink` of the missing
`src/parser/lorawan.ts`.  `confirmed = true` for Confirmed Data Up. -/
def isConfirmedUplink (mtype : Nat) : Bool := mtype == 4

/-- The output of the PHY parser (spec §4.1):
`{mtype, devAddr?, fCnt?, fPort?, joinEui?, devEui?, confirmed}`. -/
structure PhyParsed where
  mtype : Nat
  devAddr : Option (List Char) := none
  fCnt : Option Nat := none
  fPort : Option Nat := none
  joinEui : Option (List Char) := none
  devEui : Option (List Char) := none
  confirmed : Option Bool := none
  deriving DecidableEq

/-- Modelled from the spec: `parsePHYPayload` of the missing
`src/parser/lorawan.ts`.  Spec §4.1: read MHDR (top 3 bits = MType); for data
frames (MTypes 2–5) parse DevAddr (4 LE bytes), FCtrl, FCnt (2 LE bytes),
FOpts and the optional FPort; for Join Request parse JoinEUI (8 LE), DevEUI
(8 LE), DevNonce; EUIs and DevAddr are rendered as uppercase hex; fail
(`none`, the caller drops the event) when the buffer is shorter than the
message type requires. -/
def parsePHYPayload (payload : List Nat) : Option PhyParsed :=
  match payload with
  | [] => none
  | mhdr :: rest =>
    let mtype := (mhdr % 256) / 32
    if mtype == 0 then
      if rest.length < 18 then none
      else
        some { mtype
               joinEui := some (bytesToHex (rest.take 8).reverse)
               devEui := some (bytesToHex ((rest.drop 8).take 8).reverse) }
    else if mtype == 2 || mtype == 3 || mtype == 4 || mtype == 5 then
      match rest with
      | a0 :: a1 :: a2 :: a3 :: fctrl :: c0 :: c1 :: tail =>
        let foptsLen := (fctrl % 256) % 16
        if tail.length < foptsLen then none
        else
          some { mtype
                 devAddr := some (bytesToHex [a3, a2, a1, a0])
                 fCnt := some ((c0 % 256) + 256 * (c1 % 256))
                 fPort := (tail.drop foptsLen).head?.map (· % 256)
                 confirmed := some (mtype == 4 || mtype == 5) }
      | _ => none
    else some { mtype }

/-! ## Airtime (modelled from spec §4.2 — `src/parser/airtime.ts` is not
under `src/`) -/

/-- Modelled from the spec: `parseCodingRate` of the missing
`src/parser/airtime.ts`.  CR ∈ {1..4} derived from the `4/5..4/8` string;
absent or unrecognized strings give the default 4/5. -/
def parseCodingRate (s : Option String) : Nat :=
  match s with
  | some "4/5" => 1
  | some "4/6" => 2
  | some "4/7" => 3
  | some "4/8" => 4
  | _ => 1

/-- Modelled from the spec: `calculateAirtime` of the missing
`src/parser/airtime.ts`, §4.2 (explicit header, CRC on, preamble 8,
low-data-rate optimization auto for SF ≥ 11 at 125 kHz and SF 12 at
250 kHz), computed exactly over ℚ. -/
def calculateAirtime (sf bw pl cr : Nat) : ℚ :=
  if sf == 0 || bw == 0 then 0
  else
    let tSym : ℚ := (2 ^ sf : ℚ) / (bw : ℚ) * 1000000
    let de : Nat := if (11 ≤ sf && bw == 125000) || (sf == 12 && bw == 250000) then 1 else 0
    let num : Int := 8 * (pl : Int) - 4 * (sf : Int) + 28 + 16
    let den : Int := 4 * ((sf : Int) - 2 * (de : Int))
    let payloadSymbNb : Int := 8 + max (⌈(num : ℚ) / (den : ℚ)⌉ * ((cr : Int) + 4)) 0
    tSym * (8 + 4.25 + (payloadSymbNb : ℚ))

/-! ## Uplink frame parser (`src/parser/uplink.ts`, `parseUplinkFrame`) -/

/-- The `lora` modulation block of a ChirpStack uplink frame. -/
structure LoraModulation where
  bandwidth : Option Nat := none
  spreadingFactor : Option Nat := none
  codeRate : Option String := none
  deriving DecidableEq

/-- The `txInfo` block of a ChirpStack uplink frame. -/
structure TxInfoF where
  frequency : Option Nat := none
  lora : Option LoraModulation := none
  deriving DecidableEq

/-- The `rxInfo` block of a ChirpStack uplink frame; `metadata` is the
string map. -/
structure RxInfoF where
  gatewayId : Option (List Char) := none
  rssi : Option Int := none
  snr : Option ℚ := none
  metadata : List (List Char × List Char) := []
  deriving DecidableEq

/-- A ChirpStack uplink frame as consumed by `parseUplinkFrame`
(`ChirpStackUplinkFrame` in `src/parser/uplink.ts`); `phyPayload` carries the
decoded bytes (the base64 transport encoding is elided). -/
structure UplinkFrame where
  phyPayload : Option (List Nat) := none
  txInfo : Option TxInfoF := none
  rxInfo : Option RxInfoF := none
  deriving DecidableEq

/-- `parseUplinkFrame(frame, timestamp)` from `src/parser/uplink.ts`, with
the operator tables (module state of `src/operators/matcher.ts`) passed
explicitly. -/
def parseUplinkFrame (rules : List OperatorRule) (euiTable : List (List Char × String))
    (frame : UplinkFrame) (timestamp : Nat) : Option PacketM :=
  match frame.phyPayload with
  | none => none
  | some payload =>
    match parsePHYPayload payload with
    | none => none
    | some parsed =>
      let relayId := frame.rxInfo.bind (fun r => r.metadata.lookup "relay_id".data)
      let gatewayId := relayId.getD ((frame.rxInfo.bind (·.gatewayId)).getD "unknown".data)
      let borderGatewayId :=
        if relayId.isSome then frame.rxInfo.bind (·.gatewayId) else none
      let frequency := (frame.txInfo.bind (·.frequency)).getD 0
      let lora := frame.txInfo.bind (·.lora)
      let bandwidth := (lora.bind (·.bandwidth)).getD 125000
      let spreadingFactor := lora.bind (·.spreadingFactor)
      let codingRate := lora.bind (·.codeRate)
      let rssi := (frame.rxInfo.bind (·.rssi)).getD 0
      let snr := (frame.rxInfo.bind (·.snr)).getD 0
      let payloadSize := payload.length
      let airtimeUs : ℚ :=
        match spreadingFactor with
        | some sf =>
          if sf ≠ 0 ∧ bandwidth ≠ 0 then
            calculateAirtime sf bandwidth payloadSize (parseCodingRate codingRate)
          else 0
        | none => 0
      if isJoinRequest parsed.mtype then
        some { timestamp, gateway_id := gatewayId, border_gateway_id := borderGatewayId
               packet_type := "join_request"
               dev_addr := none
               join_eui := parsed.joinEui
               dev_eui := parsed.devEui
               operator :=
                 match parsed.joinEui with
                 | some je => matchOperatorForJoinEui euiTable je
                 | none => "Unknown"
               frequency, spreading_factor := spreadingFactor, bandwidth
               rssi, snr, payload_size := payloadSize, airtime_us := airtimeUs
               f_cnt := none, f_port := none, confirmed := none }
      else if isDataUplink parsed.mtype then
        some { timestamp, gateway_id := gatewayId, border_gateway_id := borderGatewayId
               packet_type := "data"
               dev_addr := parsed.devAddr
               join_eui := none, dev_eui := none
               operator :=
                 match parsed.devAddr with
                 | some da => matchOperator rules da
                 | none => "Unknown"
               frequency, spreading_factor := spreadingFactor, bandwidth
               rssi, snr, payload_size := payloadSize, airtime_us := airtimeUs
               f_cnt := parsed.fCnt, f_port := parsed.fPort
               confirmed := some (isConfirmedUplink parsed.mtype) }
      else none

/-! ## Downlink parser and message dispatch (`src/mqtt/consumer.ts`) -/

/-- A downlink frame envelope (`phyPayload` bytes, base64 elided). -/
structure DownFrame where
  phyPayload : Option (List Nat) := none
  deriving DecidableEq

/-- Modelled from the spec: `parseDownlinkFrame` of the missing
`src/parser/downlink.ts`.  Spec §4.4: "`down`: same envelope, renders as
`downlink`. The gateway id comes from the topic." — the PHYPayload of the
envelope is parsed as for uplinks and the packet is rendered with
`packet_type = "downlink"` and the caller-supplied gateway id. -/
def parseDownlinkFrame (frame : DownFrame) (timestamp : Nat)
    (gatewayId : List Char) : Option PacketM :=
  match frame.phyPayload with
  | none => none
  | some payload =>
    match parsePHYPayload payload with
    | none => none
    | some parsed =>
      some { timestamp, gateway_id := gatewayId
             packet_type := "downlink"
             dev_addr := parsed.devAddr
             payload_size := payload.length
             f_cnt := parsed.fCnt, f_port := parsed.fPort
             confirmed := parsed.confirmed }

/-- An inbound MQTT message body, already decoded from its JSON/protobuf

transport into the envelope the respective branch of `handleMessage` reads. -/
inductive MqttMsg where
  | upMsg (frame : UplinkFrame)
  | downMsg (frame : DownFrame)
  | otherMsg
  deriving DecidableEq

/-- `handleMessage(topic, message, format)` from `src/mqtt/consumer.ts`,
restricted to its gateway-packet output: application topics are handled by
separate application handlers and emit no gateway packet; otherwise the
gateway id is taken from the topic and the decoder selected by
`getEventType` runs.  The `ack` branch (`parseTxAck`, not under `src/`) and
the `stats`/`unknown` branches emit no packet here. -/
def handleMessage (rules : List OperatorRule) (euiTable : List (List Char × String))
    (topic : List Char) (msg : MqttMsg) (timestamp : Nat) : Option PacketM :=
  let eventType := getEventType topic
  if isApplicationTopic topic then none
  else
    match extractGatewayId (splitOnChar '/' topic) with
    | none => none
    | some gid =>
      match eventType, msg with
      | .up, .upMsg frame => parseUplinkFrame rules euiTable frame timestamp
      | .down, .downMsg frame => parseDownlinkFrame frame timestamp gid
      | _, _ => none

/-! ## Claim C1 — device packet loss on FCnts [5, 6, 8, 9, 12] -/

/-- The synthetic row list of the loss scenario: one device, one session
(`s1`), one gateway (`g1`), frame counters 5, 6, 8, 9, 12 in timestamp
order. -/
def lossRowsC1 : List LossRow :=
  [⟨"g1", "s1", 5⟩, ⟨"g1", "s1", 6⟩, ⟨"g1", "s1", 8⟩, ⟨"g1", "s1", 9⟩, ⟨"g1", "s1", 12⟩]

/-- C1: for a device whose data uplinks in the window carry frame counters
[5, 6, 8, 9, 12], all in one session and received by one gateway,
`getDevicePacketLoss` computes a gap of `f_cnt − prev_fcnt − 1` for every
consecutive pair with a positive gap (here 1 at FCnt 8 and 2 at FCnt 12) and
returns `received = 5`, `missed = 3`, `total_expected = 8`,
`loss_percent = 37.5`. -/
theorem claim_C1 :
    (lagFCnt lossRowsC1 []).map (fun r => (r.1.f_cnt, gapOf r)) =
        [(5, 0), (6, 0), (8, 1), (9, 0), (12, 2)]
    ∧ (getDevicePacketLoss lossRowsC1).total_received = 5
    ∧ (getDevicePacketLoss lossRowsC1).total_missed = 3
    ∧ (getDevicePacketLoss lossRowsC1).total_expected = 8
    ∧ (getDevicePacketLoss lossRowsC1).loss_percent = 37.5
    ∧ (getDevicePacketLoss lossRowsC1).per_gateway.map (fun e => (e.1, e.2.1, e.2.2.1))
        = [("g1", 5, 3)]
    ∧ (getDevicePacketLoss lossRowsC1).per_gateway.map (fun e => e.2.2.2) = [37.5] := by
  refine ⟨by decide, by decide, by decide, by decide, ?_, by decide, ?_⟩
  · have h : (getDevicePacketLoss lossRowsC1).loss_percent
        = ((3 : Int) : ℚ) / ((8 : Int) : ℚ) * 100 := rfl
    rw [h]; norm_num
  · have h : (getDevicePacketLoss lossRowsC1).per_gateway.map (fun e => e.2.2.2)
        = [((3 : Int) : ℚ) / (((5 : Nat) : ℚ) + ((3 : Int) : ℚ)) * 100] := rfl
    rw [h]
    norm_num

/-! ## Claim C3 — which packet types the ownership filter applies to -/

/-- A gateway downlink packet whose DevAddr `48000000` does not fall under
the prefix `26000000/7`. -/
def downPktC3 : PacketM :=
  { packet_type := "downlink", dev_addr := some "48000000".data }

/-- C3 counterexample: the claim says the device-ownership filter is applied
only to `data` packets and that every `downlink` packet passes it regardless
of DevAddr; but for this `downlink` packet with a foreign DevAddr and
`filterMode = owned` the filter step of `broadcastPacket` rejects it. -/
theorem claim_C3_counterexample :
    downPktC3.packet_type = "downlink"
    ∧ passesOwnership downPktC3 (some "owned") [⟨0x26000000, 0xFE000000⟩] = false := by
  constructor
  · rfl
  · decide

/-- C3 (amended): the device-ownership filter is applied exactly to packets
of type `data` or `downlink`; packets of any other type (`join_request`,
`tx_ack`) pass the ownership step regardless of their DevAddr. -/
theorem claim_C3_amended (pkt : PacketM) (mode : Option String) (P : List DevicePrefix) :
    (pkt.packet_type ≠ "data" → pkt.packet_type ≠ "downlink" →
      passesOwnership pkt mode P = true)
    ∧ (pkt.packet_type = "data" ∨ pkt.packet_type = "downlink" →
      passesOwnership pkt mode P = matchesDeviceFilter pkt.dev_addr mode P) := by
  constructor
  · intro h1 h2
    have hb1 : (pkt.packet_type == "data") = false := beq_eq_false_iff_ne.mpr h1
    have hb2 : (pkt.packet_type == "downlink") = false := beq_eq_false_iff_ne.mpr h2
    simp [passesOwnership, hb1, hb2]
  · intro h
    rcases h with h | h
    · have hb : (pkt.packet_type == "data") = true := beq_iff_eq.mpr h
      simp [passesOwnership, hb]
    · have hb : (pkt.packet_type == "downlink") = true := beq_iff_eq.mpr h
      simp [passesOwnership, hb]

/-- Witness for C3 (amended): a `tx_ack` packet passes the ownership step
even with a foreign DevAddr and `filterMode = owned`. -/
theorem claim_C3_witness :
    passesOwnership { packet_type := "tx_ack", dev_addr := some "48000000".data }
        (some "owned") [⟨0x26000000, 0xFE000000⟩] = true :=
  (claim_C3_amended { packet_type := "tx_ack", dev_addr := some "48000000".data }
      (some "owned") [⟨0x26000000, 0xFE000000⟩]).1 (by decide) (by decide)

/-! ## Claim C4 — owned/foreign complementarity -/

/-- C4: for every non-null DevAddr and non-empty prefix set `P`, the
ownership predicate accepts under `filterMode = owned` exactly when it
rejects under `filterMode = foreign`. -/
theorem claim_C4 (d : List Char) (P : List DevicePrefix) (hP : P ≠ []) :
    matchesDeviceFilter (some d) (some "owned") P = true
      ↔ matchesDeviceFilter (some d) (some "foreign") P = false := by
  have hPe : P.isEmpty = false := by
    cases P with
    | nil => exact absurd rfl hP
    | cons a l => rfl
  have h1 : ("owned" : String).isEmpty = false := by decide
  have h2 : ("foreign" : String).isEmpty = false := by decide
  have h3 : (("owned" : String) == "owned") = true := by decide
  have h4 : (("foreign" : String) == "owned") = false := by decide
  have h5 : (("foreign" : String) == "foreign") = true := by decide
  simp only [matchesDeviceFilter, hPe, h1, h2, h3, h4, h5, Bool.or_false, Bool.false_or,
    if_false, if_true]
  cases h : P.any (fun p => land32 (parseHex d) p.mask == land32 p.pfx p.mask) <;>
    simp [h]

/-- Witness for C4 at DevAddr `26011AAB` and `P = {26000000/7}`. -/
theorem claim_C4_witness :
    matchesDeviceFilter (some "26011AAB".data) (some "owned") [⟨0x26000000, 0xFE000000⟩] = true
      ↔ matchesDeviceFilter (some "26011AAB".data) (some "foreign") [⟨0x26000000, 0xFE000000⟩]
          = false :=
  claim_C4 "26011AAB".data [⟨0x26000000, 0xFE000000⟩] (by decide)

/-! ## Claim C8 — batched writer flush and re-queue -/

/-- C8: the writer flushes at `BATCH_SIZE = 1000` rows (`insertPacket`
triggers an immediate flush exactly when the buffer reaches 1000) or on the
2-second (`FLUSH_INTERVAL_MS = 2000`) timer; and when the multi-row insert
fails, the whole batch is re-queued at the head of the buffer, ahead of the
rows enqueued meanwhile, so every buffered row is still in the buffer. -/
theorem claim_C8 :
    BATCH_SIZE = 1000 ∧ FLUSH_INTERVAL_MS = 2000
    ∧ (∀ (α : Type) (buffer : List α) (row : α),
        (insertPacket buffer row).1 = buffer ++ [row]
        ∧ ((insertPacket buffer row).2 = true ↔ 1000 ≤ buffer.length + 1))
    ∧ (∀ (α : Type) (batch during : List α), batch ≠ [] →
        flushPacketBuffer batch during false = batch ++ during
        ∧ ∀ r, r ∈ batch ++ during → r ∈ flushPacketBuffer batch during false) := by
  refine ⟨rfl, rfl, ?_, ?_⟩
  · intro α buffer row
    refine ⟨rfl, ?_⟩
    simp [insertPacket, BATCH_SIZE]
  · intro α batch during hne
    have hb : batch.isEmpty = false := by
      cases batch with
      | nil => exact absurd rfl hne
      | cons a l => rfl
    constructor
    · simp [flushPacketBuffer, hb]
    · intro r hr
      simpa [flushPacketBuffer, hb] using hr

/-- Witness for C8: a failed flush of batch `[1, 2]` with row `3` enqueued
during the insert leaves the buffer `[1, 2, 3]`. -/
theorem claim_C8_witness :
    flushPacketBuffer [1, 2] [3] false = [1, 2, 3]
    ∧ (3 : Nat) ∈ flushPacketBuffer [1, 2] [3] false :=
  ⟨(claim_C8.2.2.2 Nat [1, 2] [3] (by decide)).1,
   (claim_C8.2.2.2 Nat [1, 2] [3] (by decide)).2 3 (by decide)⟩

/-! ## Claim C5 — the matchOperator rule test -/

/-- Each hex digit contributes at most 15. -/
theorem hexVal_le (c : Char) : hexVal c ≤ 15 := by
  simp only [hexVal]
  split_ifs <;> omega

/-- Bound on the big-endian hex fold. -/
theorem parseHex_foldl_lt (d : List Char) :
    ∀ acc : Nat, d.foldl (fun a c => 16 * a + hexVal c) acc < 16 ^ d.length * (acc + 1) := by
  induction d with
  | nil =>
    intro acc
    simp only [List.foldl_nil, List.length_nil, pow_zero, one_mul]
    omega
  | cons c cs ih =>
    intro acc
    have h1 := ih (16 * acc + hexVal c)
    have h2 : hexVal c ≤ 15 := hexVal_le c
    have h3 : 16 ^ cs.length * (16 * acc + hexVal c + 1) ≤ 16 ^ cs.length * (16 * (acc + 1)) :=
      Nat.mul_le_mul_left _ (by omega)
    calc (c :: cs).foldl (fun a c => 16 * a + hexVal c) acc
        = cs.foldl (fun a c => 16 * a + hexVal c) (16 * acc + hexVal c) := rfl
      _ < 16 ^ cs.length * (16 * acc + hexVal c + 1) := h1
      _ ≤ 16 ^ cs.length * (16 * (acc + 1)) := h3
      _ = 16 ^ (c :: cs).length * (acc + 1) := by
          simp [List.length_cons, Nat.pow_succ]; ring

/-- The scan loop of `matchOperator` returns the first rule passing the
code's test, else `"Unknown"`. -/
theorem matchOperatorGo_eq_find (n : Nat) :
    ∀ rules : List OperatorRule,
      matchOperatorGo n rules =
        match rules.find? (matchesRule n) with
        | some op => op.name
        | none => "Unknown" := by
  intro rules
  induction rules with
  | nil => rfl
  | cons op rest ih =>
    rw [matchOperatorGo, List.find?_cons]
    cases h : matchesRule n op <;> simp [h, ih]

/-- C5 counterexample: the claim's rule test is `(addr & mask) == prefix`,
but the code tests `(addr & mask) == (prefix & mask)`.  On a rule whose
prefix has bits outside its mask (`prefix 12345678/mask FF000000`, as a
custom configured operator may supply), `matchOperator` returns the rule's
name for DevAddr `12000000`, while the claimed scan matches no rule and
would return `"Unknown"`. -/
theorem claim_C5_counterexample :
    matchOperator [{ pfx := 0x12345678, mask := 0xFF000000, bits := 8,
                     name := "X", priority := 100 }] "12000000".data = "X"
    ∧ matchOperatorClaimed [{ pfx := 0x12345678, mask := 0xFF000000, bits := 8,
                              name := "X", priority := 100 }] "12000000".data = "Unknown" := by
  constructor
  · decide
  · decide

/-- C5 (amended): `matchOperator` parses the DevAddr hex string as a
big-endian unsigned integer (below `2 ^ 32` for the 8-digit DevAddr format),
scans the rule vector in order and returns the name of the first rule for
which `(addr & rule.mask) == (rule.prefix & rule.mask)`; if no rule satisfies
that equation it returns `"Unknown"`. -/
theorem claim_C5_amended :
    (∀ d : List Char, d.length ≤ 8 → parseHex d < 2 ^ 32)
    ∧ (∀ (rules : List OperatorRule) (d : List Char),
        matchOperator rules d =
          match rules.find? (matchesRule (parseHex d)) with
          | some op => op.name
          | none => "Unknown") := by
  constructor
  · intro d hd
    have h1 := parseHex_foldl_lt d 0
    have h2 : 16 ^ d.length ≤ 16 ^ 8 := Nat.pow_le_pow_right (by omega) hd
    have : parseHex d < 16 ^ d.length := by simpa [parseHex] using h1
    calc parseHex d < 16 ^ d.length := this
      _ ≤ 16 ^ 8 := h2
      _ = 2 ^ 32 := by norm_num
  · intro rules d
    exact matchOperatorGo_eq_find (parseHex d) rules

/-- Witness for C5 (amended) at DevAddr `26011AAB` over a two-rule vector:
the parse is below `2 ^ 32` and the first matching rule (The Things Network)
is returned. -/
theorem claim_C5_witness :
    parseHex "26011AAB".data < 2 ^ 32
    ∧ matchOperator
        [{ pfx := 0xE0000000, mask := 0xFFFE0000, bits := 15, name := "Digita", priority := 0 },
         { pfx := 0x26000000, mask := 0xFE000000, bits := 7,
           name := "The Things Network", priority := 0 }] "26011AAB".data
        = "The Things Network" :=
  ⟨claim_C5_amended.1 "26011AAB".data (by decide),
   (claim_C5_amended.2
      [{ pfx := 0xE0000000, mask := 0xFFFE0000, bits := 15, name := "Digita", priority := 0 },
       { pfx := 0x26000000, mask := 0xFE000000, bits := 7,
         name := "The Things Network", priority := 0 }] "26011AAB".data).trans (by decide)⟩

/-! ## Claim C7 — JoinEUI matching and the printable-ASCII fallback -/

/-- On hex digits, the two-character `parseInt` gives the byte value. -/
theorem jsParseIntHex2_of_hex (c1 c2 : Char) (h1 : isHexChar c1) (h2 : isHexChar c2) :
    jsParseIntHex2 c1 c2 = some (16 * hexVal c1 + hexVal c2) := by
  simp only [jsParseIntHex2, isHexChar] at *
  rw [if_pos h1, if_pos h2]

/-- On even-length all-hex input, the decode loop of `tryDecodeAscii`
succeeds exactly when every decoded byte is printable ASCII, and then
returns exactly the byte list. -/
theorem tryDecodeAsciiGo_eq :
    ∀ l : List Char, (∀ c ∈ l, isHexChar c) → l.length % 2 = 0 →
      tryDecodeAsciiGo l =
        if ∀ b ∈ hexBytes l, 32 ≤ b ∧ b ≤ 126 then some (hexBytes l) else none
  | [], _, _ => by simp [tryDecodeAsciiGo, hexBytes]
  | [c], _, hlen => by simp at hlen
  | c1 :: c2 :: rest, hhex, hlen => by
    have h1 : isHexChar c1 := hhex c1 (by simp)
    have h2 : isHexChar c2 := hhex c2 (by simp)
    have hrest := tryDecodeAsciiGo_eq rest (fun c hc => hhex c (by simp [hc]))
      (by simp only [List.length_cons] at hlen; omega)
    have hbytes : hexBytes (c1 :: c2 :: rest) = (16 * hexVal c1 + hexVal c2) :: hexBytes rest :=
      rfl
    rw [tryDecodeAsciiGo, jsParseIntHex2_of_hex c1 c2 h1 h2]
    dsimp only
    by_cases hb : 32 ≤ 16 * hexVal c1 + hexVal c2 ∧ 16 * hexVal c1 + hexVal c2 ≤ 126
    · rw [if_pos hb, hrest]
      by_cases hall : ∀ b ∈ hexBytes rest, 32 ≤ b ∧ b ≤ 126
      · have hpos : ∀ b ∈ hexBytes (c1 :: c2 :: rest), 32 ≤ b ∧ b ≤ 126 := by
          intro b hbm
          rw [hbytes] at hbm
          rcases List.mem_cons.mp hbm with rfl | hbm2
          · exact hb
          · exact hall b hbm2
        rw [if_pos hall, if_pos hpos]
        simp [hbytes]
      · have hnc : ¬∀ b ∈ hexBytes (c1 :: c2 :: rest), 32 ≤ b ∧ b ≤ 126 := by
          intro hcon
          exact hall fun b hbm => hcon b (by simp [hbytes, hbm])
        rw [if_neg hall, if_neg hnc]
        simp
    · have hnc : ¬∀ b ∈ hexBytes (c1 :: c2 :: rest), 32 ≤ b ∧ b ≤ 126 := by
        intro hcon
        exact hb (hcon (16 * hexVal c1 + hexVal c2) (by simp [hbytes]))
      rw [if_neg hb, if_neg hnc]

/-- The table scan of `matchOperatorForJoinEui` is first-match. -/
theorem joinEuiGo_eq_find (upper : List Char) :
    ∀ table : List (List Char × String),
      joinEuiGo upper table = (table.find? (fun e => beginsWith e.1 upper)).map (·.2) := by
  intro table
  induction table with
  | nil => rfl
  | cons e rest ih =>
    rw [joinEuiGo, List.find?_cons]
    cases h : beginsWith e.1 upper <;> simp [h, ih]

/-- C7: for a 16-hex-digit JoinEUI, `matchOperatorForJoinEui` returns the
operator of the first table entry whose prefix is a prefix of the uppercased
JoinEUI; with no matching entry it returns `"Private"` when all 8 bytes
decode to printable ASCII (0x20–0x7E) and `"Unknown"` otherwise. -/
theorem claim_C7 (table : List (List Char × String)) (eui : List Char)
    (hlen : eui.length = 16) (hhex : ∀ c ∈ eui, isHexChar c) :
    matchOperatorForJoinEui table eui =
      match table.find? (fun e => beginsWith e.1 (eui.map toUpperChar)) with
      | some e => e.2
      | none => if ∀ b ∈ hexBytes eui, 32 ≤ b ∧ b ≤ 126 then "Private" else "Unknown" := by
  rw [matchOperatorForJoinEui, joinEuiGo_eq_find]
  cases hf : (table.find? (fun e => beginsWith e.1 (eui.map toUpperChar))) with
  | some e => simp
  | none =>
    simp only [Option.map_none']
    rw [tryDecodeAscii, if_neg (by omega), tryDecodeAsciiGo_eq eui hhex (by omega)]
    obtain ⟨x, xs, hhb⟩ : ∃ x xs, hexBytes eui = x :: xs := by
      cases eui with
      | nil => simp at hlen
      | cons a t =>
        cases t with
        | nil => simp at hlen
        | cons b t2 => exact ⟨_, _, rfl⟩
    by_cases hall : ∀ b ∈ hexBytes eui, 32 ≤ b ∧ b ≤ 126
    · simp only [if_pos hall]
      simp [hhb]
    · simp only [if_neg hall]

/-- Witness for C7: JoinEUI `70b3D57ED0000001` is matched by the table
entry with prefix `70B3` (after uppercasing). -/
theorem claim_C7_witness :
    matchOperatorForJoinEui [("70B3".data, "TTI")] "70b3D57ED0000001".data = "TTI" :=
  (claim_C7 [("70B3".data, "TTI")] "70b3D57ED0000001".data (by decide) (by decide)).trans
    (by decide)

/-! ## Claim C2 — dispatch of gateway downlink topics -/

/-- Characters of a matched prefix occur in the string. -/
theorem beginsWith_subset :
    ∀ pat l : List Char, beginsWith pat l = true → ∀ c ∈ pat, c ∈ l
  | [], _, _, c, hc => absurd hc (List.not_mem_nil c)
  | p :: ps, [], h, _, _ => by simp [beginsWith] at h
  | p :: ps, d :: ds, h, c, hc => by
    simp only [beginsWith, Bool.and_eq_true, beq_iff_eq] at h
    rcases List.mem_cons.mp hc with rfl | hc2
    · exact h.1 ▸ List.mem_cons_self _ _
    · exact List.mem_cons_of_mem _ (beginsWith_subset ps ds h.2 c hc2)

/-- Characters of a matched substring occur in the string. -/
theorem containsSeq_subset :
    ∀ (l pat : List Char), containsSeq pat l = true → ∀ c ∈ pat, c ∈ l
  | [], pat, h, c, hc => by
    cases pat with
    | nil => exact absurd hc (List.not_mem_nil c)
    | cons p ps => simp [containsSeq, beginsWith] at h
  | d :: ds, pat, h, c, hc => by
    rw [containsSeq] at h
    simp only [Bool.or_eq_true] at h
    rcases h with h1 | h2
    · exact beginsWith_subset pat (d :: ds) h1 c hc
    · exact List.mem_cons_of_mem _ (containsSeq_subset ds pat h2 c hc)

/-- A pattern containing a character absent from the string is not a
substring of it. -/
theorem containsSeq_false_of (pat l : List Char) (c : Char) (hc : c ∈ pat) (hl : c ∉ l) :
    containsSeq pat l = false := by
  cases h : containsSeq pat l
  · rfl
  · exact absurd (containsSeq_subset l pat h c hc) hl

/-- Every string is a prefix of itself. -/
theorem beginsWith_refl : ∀ l : List Char, beginsWith l l = true
  | [] => rfl
  | c :: cs => by simp [beginsWith, beginsWith_refl cs]

/-- A string contains each of its suffixes. -/
theorem containsSeq_of_suffix : ∀ (pre pat : List Char), containsSeq pat (pre ++ pat) = true
  | [], pat => by
    cases pat with
    | nil => rfl
    | cons p ps => simp [containsSeq, beginsWith_refl]
  | c :: pre2, pat => by
    rw [List.cons_append, containsSeq, containsSeq_of_suffix pre2 pat]
    simp

/-- Splitting peels off a separator-free leading segment. -/
theorem splitOnChar_append_sep (sep : Char) :
    ∀ (seg rest : List Char), sep ∉ seg →
      splitOnChar sep (seg ++ sep :: rest) = seg :: splitOnChar sep rest
  | [], rest, _ => by simp [splitOnChar]
  | c :: seg2, rest, h => by
    have hc : (c == sep) = false :=
      beq_eq_false_iff_ne.mpr fun e => h (e ▸ List.mem_cons_self c seg2)
    rw [List.cons_append, splitOnChar, if_neg (by simp [hc]),
      splitOnChar_append_sep sep seg2 rest (fun hm => h (List.mem_cons_of_mem _ hm))]

/-- Splitting a separator-free string yields the single segment. -/
theorem splitOnChar_no_sep (sep : Char) :
    ∀ seg : List Char, sep ∉ seg → splitOnChar sep seg = [seg]
  | [], _ => rfl
  | c :: seg2, h => by
    have hc : (c == sep) = false :=
      beq_eq_false_iff_ne.mpr fun e => h (e ▸ List.mem_cons_self c seg2)
    rw [splitOnChar, if_neg (by simp [hc]),
      splitOnChar_no_sep sep seg2 (fun hm => h (List.mem_cons_of_mem _ hm))]

/-- A downlink frame used in the C2 scenarios: an 8-byte PHYPayload whose
MHDR (0x60) is Unconfirmed Data Down, DevAddr `26000001`, FCnt 5. -/
def frameC2 : DownFrame := { phyPayload := some [0x60, 1, 0, 0, 0x26, 0, 5, 0] }

/-- C2 counterexample: on the topic `eu868/gateway/gw1/event/down` of the
claim, `getEventType` (which looks for `/command/down`) does not classify
the message as a downlink, and `handleMessage` emits no packet at all —
even though the downlink decoder would succeed on the carried frame. -/
theorem claim_C2_counterexample :
    getEventType "eu868/gateway/gw1/event/down".data ≠ EventType.down
    ∧ handleMessage [] [] "eu868/gateway/gw1/event/down".data (.downMsg frameC2) 0 = none
    ∧ (parseDownlinkFrame frameC2 0 "gw1".data).isSome = true := by
  refine ⟨by decide, by decide, by decide⟩

/-- C2 (amended): for every MQTT message on a gateway topic of the shape
`<region>/gateway/{id}/command/down` (a gateway topic: not under
`application/`), the dispatcher classifies the message as a downlink,
invokes the downlink decoder, and emits the decoder's packet, which is of
type `downlink` and carries the gateway id from the topic. -/
theorem claim_C2_amended (rules : List OperatorRule) (euiTable : List (List Char × String))
    (region id : List Char) (frame : DownFrame) (ts : Nat) (pkt : PacketM)
    (hr1 : '/' ∉ region) (hr2 : 'v' ∉ region) (hr3 : region ≠ "gateway".data)
    (hi1 : '/' ∉ id) (hi2 : 'v' ∉ id)
    (happ : isApplicationTopic
        (region ++ '/' :: ("gateway".data ++ '/' :: (id ++ '/' ::
          ("command".data ++ '/' :: "down".data)))) = false)
    (hpk : parseDownlinkFrame frame ts id = some pkt) :
    getEventType (region ++ '/' :: ("gateway".data ++ '/' :: (id ++ '/' ::
        ("command".data ++ '/' :: "down".data)))) = EventType.down
    ∧ handleMessage rules euiTable
        (region ++ '/' :: ("gateway".data ++ '/' :: (id ++ '/' ::
          ("command".data ++ '/' :: "down".data)))) (.downMsg frame) ts = some pkt
    ∧ pkt.packet_type = "downlink" ∧ pkt.gateway_id = id := by
  set topic : List Char := region ++ '/' :: ("gateway".data ++ '/' :: (id ++ '/' ::
    ("command".data ++ '/' :: "down".data))) with htopic
  have hvt : 'v' ∉ topic := by
    intro hmem
    rw [htopic] at hmem
    simp at hmem
    rcases hmem with h | h
    · exact hr2 h
    · exact hi2 h
  have hup := containsSeq_false_of "/event/up".data topic 'v' (by decide) hvt
  have htx := containsSeq_false_of "/event/txack".data topic 'v' (by decide) hvt
  have hak := containsSeq_false_of "/event/ack".data topic 'v' (by decide) hvt
  have hlit : "/command/down".data = '/' :: ("command".data ++ '/' :: "down".data) := by decide
  have hshape : topic = (region ++ '/' :: ("gateway".data ++ '/' :: id)) ++ "/command/down".data := by
    rw [hlit, htopic]
    simp [List.append_assoc]
  have hdw : containsSeq "/command/down".data topic = true := by
    rw [hshape]
    exact containsSeq_of_suffix _ _
  have hev : getEventType topic = EventType.down := by
    simp [getEventType, hup, htx, hak, hdw]
  have hparts : splitOnChar '/' topic =
      [region, "gateway".data, id, "command".data, "down".data] := by
    rw [htopic]
    rw [splitOnChar_append_sep '/' region _ hr1]
    rw [splitOnChar_append_sep '/' "gateway".data _ (by decide)]
    rw [splitOnChar_append_sep '/' id _ hi1]
    rw [splitOnChar_append_sep '/' "command".data _ (by decide)]
    rw [splitOnChar_no_sep '/' "down".data (by decide)]
  have hgid : extractGatewayId (splitOnChar '/' topic) = some id := by
    rw [hparts]
    have hrg : (region == "gateway".data) = false := beq_eq_false_iff_ne.mpr hr3
    simp [extractGatewayId, idxOfGateway, hrg]
  have hfields : pkt.packet_type = "downlink" ∧ pkt.gateway_id = id := by
    rw [parseDownlinkFrame] at hpk
    cases hph : frame.phyPayload with
    | none => rw [hph] at hpk; simp at hpk
    | some payload =>
      rw [hph] at hpk
      dsimp only at hpk
      cases hpp : parsePHYPayload payload with
      | none => rw [hpp] at hpk; simp at hpk
      | some parsed =>
        rw [hpp] at hpk
        dsimp only at hpk
        have h2 := Option.some.inj hpk
        rw [← h2]
        exact ⟨rfl, rfl⟩
  refine ⟨hev, ?_, hfields.1, hfields.2⟩
  rw [handleMessage, hev, hgid]
  simp only [happ, Bool.false_eq_true, if_false]
  exact hpk

/-- The packet produced by the spec-modelled downlink decoder on `frameC2`
with gateway id `gw1`. -/
def pktC2 : PacketM :=
  { timestamp := 0, gateway_id := "gw1".data, packet_type := "downlink",
    dev_addr := some "26000001".data, payload_size := 8, f_cnt := some 5,
    f_port := none, confirmed := some false }

/-- Witness for C2 (amended) on the concrete topic
`eu868/gateway/gw1/command/down`. -/
theorem claim_C2_witness :
    getEventType ("eu868".data ++ '/' :: ("gateway".data ++ '/' :: ("gw1".data ++ '/' ::
        ("command".data ++ '/' :: "down".data)))) = EventType.down
    ∧ handleMessage [] [] ("eu868".data ++ '/' :: ("gateway".data ++ '/' :: ("gw1".data ++ '/' ::
        ("command".data ++ '/' :: "down".data)))) (.downMsg frameC2) 0 = some pktC2
    ∧ pktC2.packet_type = "downlink" ∧ pktC2.gateway_id = "gw1".data :=
  claim_C2_amended [] [] "eu868".data "gw1".data frameC2 0 pktC2
    (by decide) (by decide) (by decide) (by decide) (by decide) (by decide) (by decide)

/-! ## Claim C6 — operator rule ordering -/

/-- The sort comparator is transitive. -/
theorem ruleLE_trans : ∀ a b c : OperatorRule, ruleLE a b → ruleLE b c → ruleLE a c := by
  intro a b c h1 h2
  simp only [ruleLE] at *
  by_cases hab : a.priority = b.priority <;> by_cases hbc : b.priority = c.priority <;>
    by_cases hac : a.priority = c.priority <;> simp_all <;> omega

/-- The sort comparator is total. -/
theorem ruleLE_total : ∀ a b : OperatorRule, ruleLE a b || ruleLE b a := by
  intro a b
  simp only [ruleLE]
  by_cases hab : a.priority = b.priority
  · simp_all
    omega
  · have hba : ¬b.priority = a.priority := fun e => hab e.symm
    simp_all

/-- In a comparator-sorted rule vector whose only rules matching `n` are
`r1` and `r2`, with `r2` not allowed to precede `r1`, the scan returns
`r1`'s name. -/
theorem matchGo_first_of_sorted (n : Nat) (r1 r2 : OperatorRule)
    (hne : ruleLE r2 r1 = false) (hm1 : matchesRule n r1 = true) :
    ∀ out : List OperatorRule, List.Pairwise (fun x y => ruleLE x y = true) out →
      r1 ∈ out → (∀ x ∈ out, matchesRule n x = true → x = r1 ∨ x = r2) →
      matchOperatorGo n out = r1.name
  | [], _, hmem, _ => absurd hmem (List.not_mem_nil r1)
  | x :: xs, hpw, hmem, honly => by
    rw [matchOperatorGo]
    by_cases hx : matchesRule n x = true
    · rw [if_pos hx]
      rcases honly x (List.mem_cons_self x xs) hx with heq | heq
    

      · rw [heq]
      · subst heq
        rcases List.mem_cons.mp hmem with heq1 | hm
        · rw [heq1]
        · have hxr1 := (List.pairwise_cons.mp hpw).1 r1 hm
          rw [hne] at hxr1
          exact absurd hxr1 (by simp)
    · rw [if_neg hx]
      have hr1xs : r1 ∈ xs := by
        rcases List.mem_cons.mp hmem with heq | hm
        · exact absurd (heq ▸ hm1) hx
        · exact hm
      exact matchGo_first_of_sorted n r1 r2 hne hm1 xs (List.pairwise_cons.mp hpw).2 hr1xs
        (fun y hy hmy => honly y (List.mem_cons_of_mem x hy) hmy)

/-- In a rule vector where `[r1, r2]` occurs as a sublist, `r2` occurs only
once, and the only rules matching `n` are `r1` and `r2`, the scan returns
`r1`'s name (the earlier of two tied rules wins). -/
theorem matchGo_first_stable (n : Nat) (r1 r2 : OperatorRule)
    (hne : r1 ≠ r2) (hm1 : matchesRule n r1 = true) (hm2 : matchesRule n r2 = true) :
    ∀ out : List OperatorRule, [r1, r2].Sublist out → out.count r2 = 1 →
      (∀ x ∈ out, matchesRule n x = true → x = r1 ∨ x = r2) →
      matchOperatorGo n out = r1.name
  | [], hsl, _, _ => by simp at hsl
  | x :: xs, hsl, hcount, honly => by
    rw [matchOperatorGo]
    by_cases hx : matchesRule n x = true
    · rw [if_pos hx]
      rcases honly x (List.mem_cons_self x xs) hx with heq | heq
      · rw [heq]
      · exfalso
        subst heq
        cases hsl with
        | cons _ h =>
          have hmem2 : x ∈ xs := h.subset (by simp)
          rw [List.count_cons_self] at hcount
          have h0 : xs.count x = 0 := by omega
          exact (List.count_eq_zero.mp h0) hmem2
        | cons₂ _ h => exact hne rfl
    · rw [if_neg hx]
      have hx1 : x ≠ r1 := fun e => hx (e ▸ hm1)
      have hx2 : x ≠ r2 := fun e => hx (e ▸ hm2)
      have hsl2 : [r1, r2].Sublist xs := by
        cases hsl with
        | cons _ h => exact h
        | cons₂ _ h => exact absurd rfl hx1
      have hcount2 : xs.count r2 = 1 := by
        rw [List.count_cons] at hcount
        simpa [hx2] using hcount
      exact matchGo_first_stable n r1 r2 hne hm1 hm2 xs hsl2 hcount2
        (fun y hy hmy => honly y (List.mem_cons_of_mem x hy) hmy)

/-- C6: in every rule set built by `initOperatorPrefixes`, a DevAddr that
matches exactly two rules of equal priority is assigned to the rule with the
larger `bits` count; when `bits` also tie, the rule inserted earlier (in the
built-in-then-custom assembly order) wins. -/
theorem claim_C6 :
    (∀ (builtin : List (Nat × Nat × String)) (custom : List (Nat × Nat × String × Int))
        (d : List Char) (r1 r2 : OperatorRule),
      r1 ∈ builtRules builtin custom → r2 ∈ builtRules builtin custom →
      matchesRule (parseHex d) r1 = true → matchesRule (parseHex d) r2 = true →
      (∀ x ∈ builtRules builtin custom, matchesRule (parseHex d) x = true → x = r1 ∨ x = r2) →
      r1.priority = r2.priority → r2.bits < r1.bits →
      matchOperator (initOperatorPrefixes builtin custom) d = r1.name)
    ∧ (∀ (builtin : List (Nat × Nat × String)) (custom : List (Nat × Nat × String × Int))
        (d : List Char) (r1 r2 : OperatorRule),
      [r1, r2].Sublist (builtRules builtin custom) →
      (builtRules builtin custom).count r2 = 1 →
      matchesRule (parseHex d) r1 = true → matchesRule (parseHex d) r2 = true →
      (∀ x ∈ builtRules builtin custom, matchesRule (parseHex d) x = true → x = r1 ∨ x = r2) →
      r1.priority = r2.priority → r1.bits = r2.bits → r1 ≠ r2 →
      matchOperator (initOperatorPrefixes builtin custom) d = r1.name) := by
  constructor
  · intro builtin custom d r1 r2 h1 h2 hm1 hm2 honly hpr hbits
    have hne : ruleLE r2 r1 = false := by
      simp only [ruleLE, hpr]
      simp
      omega
    unfold matchOperator initOperatorPrefixes
    apply matchGo_first_of_sorted (parseHex d) r1 r2 hne hm1
    · exact List.sorted_mergeSort ruleLE_trans ruleLE_total _
    · exact List.mem_mergeSort.mpr h1
    · intro x hx hmx
      exact honly x (List.mem_mergeSort.mp hx) hmx
  · intro builtin custom d r1 r2 hsl hcount hm1 hm2 honly hpr hbits hne
    have hab : ruleLE r1 r2 = true := by
      simp only [ruleLE, hpr]
      simp
      omega
    unfold matchOperator initOperatorPrefixes
    apply matchGo_first_stable (parseHex d) r1 r2 hne hm1 hm2
    · exact List.pair_sublist_mergeSort ruleLE_trans ruleLE_total hab hsl
    · rw [List.Perm.count_eq (List.mergeSort_perm _ ruleLE) r2]
      exact hcount
    · intro x hx hmx
      exact honly x (List.mem_mergeSort.mp hx) hmx

/-- Witness for C6: DevAddr `26000001` matches both rules below; the /15
rule beats the /7 rule regardless of table position, and between two /7
rules the earlier table entry wins. -/
theorem claim_C6_witness :
    matchOperator (initOperatorPrefixes [(0x26000000, 7, "A"), (0x26000000, 15, "B")] [])
        "26000001".data = "B"
    ∧ matchOperator (initOperatorPrefixes [(0x26000000, 7, "A"), (0x26000000, 7, "B")] [])
        "26000001".data = "A" :=
  ⟨claim_C6.1 [(0x26000000, 7, "A"), (0x26000000, 15, "B")] [] "26000001".data
      { pfx := 0x26000000, mask := 0xFFFE0000, bits := 15, name := "B", priority := 0 }
      { pfx := 0x26000000, mask := 0xFE000000, bits := 7, name := "A", priority := 0 }
      (by decide) (by decide) (by decide) (by decide) (by decide) (by decide) (by decide),
   claim_C6.2 [(0x26000000, 7, "A"), (0x26000000, 7, "B")] [] "26000001".data
      { pfx := 0x26000000, mask := 0xFE000000, bits := 7, name := "A", priority := 0 }
      { pfx := 0x26000000, mask := 0xFE000000, bits := 7, name := "B", priority := 0 }
      (List.Sublist.refl _) (by decide) (by decide) (by decide) (by decide) (by decide)
      (by decide) (by decide)⟩

/-! ## Claim C9 — signed rssi varints -/

/-- Bitwise-or of a value below `2 ^ s` with a value shifted by `s` is
their sum. -/
theorem lorDisjointAdd : ∀ (s acc x : Nat), acc < 2 ^ s → acc ||| (x <<< s) = acc + x * 2 ^ s := by
  intro s
  induction s with
  | zero =>
    intro acc x h
    have hz : acc = 0 := by omega
    subst hz
    simp [Nat.shiftLeft_eq]
  | succ s ih =>
    intro acc x h
    have hx : x <<< (s + 1) = Nat.bit false (x <<< s) := by
      rw [Nat.shiftLeft_succ]
      simp [Nat.bit_val]
    have hdiv : Nat.div2 acc < 2 ^ s := by
      have h2 : 2 ^ (s + 1) = 2 ^ s * 2 := Nat.pow_succ 2 s
      rw [Nat.div2_val]
      omega
    conv_lhs => rw [← Nat.bit_decomp acc]
    rw [hx, Nat.lor_bit, ih (Nat.div2 acc) x hdiv]
    have hacc : 2 * Nat.div2 acc + (Nat.bodd acc).toNat = acc := by
      have := Nat.bit_decomp acc
      rw [Nat.bit_val] at this
      omega
    rw [Nat.bit_val]
    have h2 : 2 ^ (s + 1) = 2 ^ s * 2 := Nat.pow_succ 2 s
    simp only [Bool.or_false]
    rw [h2]
    have : 2 * (Nat.div2 acc + x * 2 ^ s) + (Nat.bodd acc).toNat
        = (2 * Nat.div2 acc + (Nat.bodd acc).toNat) + x * (2 ^ s * 2) := by ring
    rw [this, hacc]

/-- Decoding the varint encoding (with sufficient fuel) recovers the value,
consuming exactly the encoding. -/
theorem readVarintBigIntAux_encodeAux :
    ∀ (fuel v shift acc : Nat), v < fuel → acc < 2 ^ shift →
      readVarintBigIntAux (varintEncodeAux fuel v) shift acc
        = (acc + v * 2 ^ shift, (varintEncodeAux fuel v).length)
  | 0, v, _, _, hv, _ => by omega
  | fuel + 1, v, shift, acc, hv, hacc => by
    rw [varintEncodeAux]
    by_cases hcase : v < 128
    · rw [if_pos hcase]
      rw [readVarintBigIntAux]
      have hb1 : v % 256 = v := Nat.mod_eq_of_lt (by omega)
      have h7 : v % 256 &&& 127 = v := by
        rw [hb1]
        have hlt := Nat.and_pow_two_sub_one_of_lt_two_pow (x := v) (n := 7) (by omega)
        norm_num at hlt
        exact hlt
      have h8 : (v % 256 &&& 128 == 0) = true := by
        rw [hb1]
        have ht : Nat.testBit v 7 = false := Nat.testBit_lt_two_pow (by omega)
        have he : v &&& 128 = v &&& 2 ^ 7 := by norm_num
        rw [he, Nat.and_two_pow, ht]
        simp
      rw [h7, h8]
      simp only [if_true]
      rw [lorDisjointAdd shift acc v hacc]
      rfl
    · rw [if_neg hcase]
      rw [readVarintBigIntAux]
      have hlt : v % 128 + 128 < 256 := by omega
      have hb1 : (v % 128 + 128) % 256 = v % 128 + 128 := Nat.mod_eq_of_lt hlt
      have h7 : (v % 128 + 128) % 256 &&& 127 = v % 128 := by
        rw [hb1]
        have hmod := Nat.and_pow_two_sub_one_eq_mod (v % 128 + 128) 7
        norm_num at hmod
        omega
      have h8 : ((v % 128 + 128) % 256 &&& 128 == 0) = false := by
        rw [hb1]
        have hd : (v % 128 + 128) / 2 ^ 7 % 2 = 1 := by
          norm_num
        have ht : Nat.testBit (v % 128 + 128) 7 = true := by
          rw [Nat.testBit_to_div_mod]
          simp [hd]
        have h128 : v % 128 + 128 &&& 128 = (v % 128 + 128) &&& 2 ^ 7 := by norm_num
        rw [h128, Nat.and_two_pow, ht]
        simp
      rw [h7, h8]
      simp only [Bool.false_eq_true, if_false]
      have hin : acc ||| (v % 128) <<< shift < 2 ^ (shift + 7) := by
        rw [lorDisjointAdd shift acc (v % 128) hacc]
        have hpow : (2 : Nat) ^ (shift + 7) = 2 ^ shift * 128 := by
          rw [Nat.pow_add]
        have hm : v % 128 * 2 ^ shift ≤ 127 * 2 ^ shift :=
          Nat.mul_le_mul_right _ (by omega)
        rw [hpow]
        have hppos : 0 < 2 ^ shift := Nat.pos_pow_of_pos shift (by omega)
        omega
      have hdlt : v / 128 < fuel := by
        have hds : v / 128 < v := Nat.div_lt_self (by omega) (by omega)
        omega
      have hrec := readVarintBigIntAux_encodeAux fuel (v / 128) (shift + 7)
        (acc ||| (v % 128) <<< shift) hdlt hin
      rw [hrec, lorDisjointAdd shift acc (v % 128) hacc]
      have hv128 : 128 * (v / 128) + v % 128 = v := Nat.div_add_mod v 128
      have hpow : (2 : Nat) ^ (shift + 7) = 2 ^ shift * 128 := by
        rw [Nat.pow_add]
      simp only [Prod.mk.injEq, List.length_cons]
      refine ⟨?_, trivial⟩
      rw [hpow]
      have hr : acc + v % 128 * 2 ^ shift + v / 128 * (2 ^ shift * 128)
          = acc + (128 * (v / 128) + v % 128) * 2 ^ shift := by ring
      rw [hr, hv128]

/-- Decoding the protobuf varint encoding of `v` (the loop of
`readVarintBigInt`) recovers `v`, consuming exactly the encoding. -/
theorem readVarintBigIntAux_encode (v : Nat) :
    ∀ shift acc : Nat, acc < 2 ^ shift →
      readVarintBigIntAux (varintEncode v) shift acc
        = (acc + v * 2 ^ shift, (varintEncode v).length) :=
  fun shift acc hacc =>
    readVarintBigIntAux_encodeAux (v + 1) v shift acc (by omega) hacc

/-- `decodeRxInfo` on a message holding a single varint rssi field
(tag byte 0x30 = field 6, wire type 0): the stored rssi is the signed-32
truncation of the decoded varint. -/
theorem decodeRxInfo_varint (v : Nat) :
    decodeRxInfo (48 :: varintEncode v) = { rssi := some (bigIntToSigned32 v) } := by
  have henc := readVarintBigIntAux_encode v 0 0 (by norm_num)
  have htag : readVarint (48 :: varintEncode v) 0 = (48, 1) := rfl
  have hbig : readVarintBigInt (48 :: varintEncode v) 1 = (v, 1 + (varintEncode v).length) := by
    rw [readVarintBigInt]
    simp only [List.drop_succ_cons, List.drop_zero]
    rw [henc]
    simp
  rw [decodeRxInfo]
  simp only [List.length_cons]
  rw [decodeRxInfoGo]
  rw [if_pos (by simp)]
  rw [htag]
  norm_num
  rw [hbig]
  norm_num
  rw [decodeRxInfoGo]
  rw [if_neg (by simp; omega)]

/-- C9: the rx-info decoder reads the rssi field with the unbounded
(BigInt) varint reader, so the 10-byte encoding of a negative signed integer
is accepted; for every varint value `v` the stored rssi is the
two's-complement interpretation of the low 32 bits of `v` (it is congruent
to `v` modulo `2 ^ 32` and lies in `[-2^31, 2^31)`).  The 64-bit
two's-complement encoding of −110 occupies exactly 10 varint bytes and
decodes to rssi −110. -/
theorem claim_C9 :
    (∀ v : Nat,
      (decodeRxInfo (48 :: varintEncode v)).rssi = some (bigIntToSigned32 v)
      ∧ bigIntToSigned32 v % (2 ^ 32 : Int) = (v : Int) % 2 ^ 32
      ∧ -(2 ^ 31) ≤ bigIntToSigned32 v ∧ bigIntToSigned32 v < 2 ^ 31)
    ∧ (varintEncode (2 ^ 64 - 110)).length = 10
    ∧ (decodeRxInfo (48 :: varintEncode (2 ^ 64 - 110))).rssi = some (-110) := by
  refine ⟨?_, ?_, ?_⟩
  · intro v
    refine ⟨by rw [decodeRxInfo_varint], ?_, ?_, ?_⟩
    · simp only [bigIntToSigned32]
      split_ifs with h
      · omega
      · omega
    · simp only [bigIntToSigned32]
      split_ifs with h
      · omega
      · omega
    · simp only [bigIntToSigned32]
      split_ifs with h
      · omega
      · omega
  · decide
  · rw [decodeRxInfo_varint]
    decide

/-! ## Claim C10 — which frames produce packets -/

/-- C10: `parseUplinkFrame` produces a packet only when the decoded
PHYPayload's MType is Join Request (packet type `join_request`) or
Confirmed/Unconfirmed Data Up (packet type `data`); a frame with a missing
`phyPayload`, a PHYPayload the parser rejects, or any other MType yields
`null` and the uplink event is dropped. -/
theorem claim_C10 (rules : List OperatorRule) (tbl : List (List Char × String))
    (frame : UplinkFrame) (ts : Nat) :
    (frame.phyPayload = none → parseUplinkFrame rules tbl frame ts = none)
    ∧ (∀ payload, frame.phyPayload = some payload → parsePHYPayload payload = none →
        parseUplinkFrame rules tbl frame ts = none)
    ∧ (∀ payload parsed, frame.phyPayload = some payload →
        parsePHYPayload payload = some parsed →
        isJoinRequest parsed.mtype = false → isDataUplink parsed.mtype = false →
        parseUplinkFrame rules tbl frame ts = none)
    ∧ (∀ pkt, parseUplinkFrame rules tbl frame ts = some pkt →
        ∃ payload parsed, frame.phyPayload = some payload
          ∧ parsePHYPayload payload = some parsed
          ∧ ((isJoinRequest parsed.mtype = true ∧ pkt.packet_type = "join_request")
            ∨ (isDataUplink parsed.mtype = true ∧ pkt.packet_type = "data"))) := by
  refine ⟨?_, ?_, ?_, ?_⟩
  · intro h
    rw [parseUplinkFrame, h]
  · intro payload h hp
    rw [parseUplinkFrame, h]
    dsimp only
    rw [hp]
  · intro payload parsed h hp hj hd
    rw [parseUplinkFrame, h]
    dsimp only
    rw [hp]
    dsimp only
    simp [hj, hd]
  · intro pkt h
    rw [parseUplinkFrame] at h
    cases hph : frame.phyPayload with
    | none => rw [hph] at h; simp at h
    | some payload =>
      rw [hph] at h
      dsimp only at h
      cases hpp : parsePHYPayload payload with
      | none => rw [hpp] at h; simp at h
      | some parsed =>
        rw [hpp] at h
        dsimp only at h
        refine ⟨payload, parsed, rfl, hpp, ?_⟩
        by_cases hj : isJoinRequest parsed.mtype = true
        · left
          refine ⟨hj, ?_⟩
          rw [if_pos hj] at h
          have h2 := Option.some.inj h
          rw [← h2]
        · rw [if_neg hj] at h
          by_cases hd : isDataUplink parsed.mtype = true
          · right
            refine ⟨hd, ?_⟩
            rw [if_pos hd] at h
            have h2 := Option.some.inj h
            rw [← h2]
          · rw [if_neg hd] at h
            simp at h

/-- Witness for C10: a frame without `phyPayload`, a frame with an empty
(rejected) PHYPayload, and a Join-Accept frame (MType 1) all yield no
packet. -/
theorem claim_C10_witness :
    parseUplinkFrame [] [] { phyPayload := none } 0 = none
    ∧ parseUplinkFrame [] [] { phyPayload := some [] } 0 = none
    ∧ parseUplinkFrame [] [] { phyPayload := some [32] } 0 = none :=
  ⟨(claim_C10 [] [] { phyPayload := none } 0).1 rfl,
   (claim_C10 [] [] { phyPayload := some [] } 0).2.1 [] rfl (by decide),
   (claim_C10 [] [] { phyPayload := some [32] } 0).2.2.1 [32]
     { mtype := 1 } rfl (by decide) (by decide) (by decide)⟩
